import Mathlib

/-!
Verification development for the query-execution core of the
firebird-core-framework repository (TypeScript).

The embedding models, from the source:
* `QueryService.validateSql` / `QueryService.validateSqlForTransaction` /
  `QueryService.containsSqlInjectionPatterns` (src QueryService),
* `QueryService.executeQuery`, `QueryService.executeTransaction`,
  `QueryService.executeSelect`,
* `ConnectionManager.connect` (including the inner `sanitizePoolConfig`),
  `ConnectionManager.isConnected`, `ConnectionManager.getConnection`,
* `PluginManager.register` and the per-phase dispatch loops.

JavaScript strings are modelled as `String`/`List Char` with the ASCII
fragment of `toUpperCase` (`Char.toUpper`); regular expressions are
modelled as explicit backtracking matchers with the same existential
"a match exists somewhere" semantics as `RegExp.test`.  The external
driver (knex) is modelled as an oracle passed in as a function.
-/

namespace NodeFirebird

/-- JavaScript whitespace (`String.prototype.trim` / regex `\s`), ASCII
fragment: space, tab, newline, carriage return, vertical tab, form feed. -/
def jsWs (c : Char) : Bool :=
  c == ' ' || c == '\t' || c == '\n' || c == '\r' || c == '\x0b' || c == '\x0c'

/-- `String.prototype.trim`: drop leading and trailing whitespace. -/
def trimList (l : List Char) : List Char :=
  ((l.dropWhile jsWs).reverse.dropWhile jsWs).reverse

/-- `sql.trim().toUpperCase()` from `validateSql` /
`validateSqlForTransaction` (ASCII case fold). -/
def normChars (s : String) : List Char :=
  (trimList s.toList).map Char.toUpper

/-- `needle` is a prefix of `hay` (character-exact). -/
def hasPrefixCh : List Char → List Char → Bool
  | [], _ => true
  | _ :: _, [] => false
  | a :: as, b :: bs => a == b && hasPrefixCh as bs

/-- `hay.includes(needle)`: `needle` occurs contiguously in `hay`. -/
def hasSubstrCh (needle : List Char) : List Char → Bool
  | [] => hasPrefixCh needle []
  | c :: rest => hasPrefixCh needle (c :: rest) || hasSubstrCh needle rest

/-- Case-insensitive character comparison (ASCII fold). -/
def eqCI (a b : Char) : Bool := Char.toUpper a == Char.toUpper b

/-- Case-insensitive prefix test. -/
def hasPrefixCI : List Char → List Char → Bool
  | [], _ => true
  | _ :: _, [] => false
  | a :: as, b :: bs => eqCI a b && hasPrefixCI as bs

/-- Case-insensitive substring test ("contains `needle` in any letter
case, at any position"). -/
def hasSubstrCI (needle : List Char) : List Char → Bool
  | [] => hasPrefixCI needle []
  | c :: rest => hasPrefixCI needle (c :: rest) || hasSubstrCI needle rest

/-- All suffixes reachable from `l` by consuming zero or more whitespace
characters (the backtracking choices of regex `\s*`). -/
def afterWsStar : List Char → List (List Char)
  | [] => [[]]
  | c :: rest => if jsWs c then (c :: rest) :: afterWsStar rest else [c :: rest]

/-- All suffixes reachable by consuming one or more whitespace characters
(regex `\s+`). -/
def afterWsPlus : List Char → List (List Char)
  | [] => []
  | c :: rest => if jsWs c then afterWsStar rest else []

/-- All suffixes reachable by consuming zero or more non-line-terminator
characters (regex `.*` without the dotall flag). -/
def afterDotStar : List Char → List (List Char)
  | [] => [[]]
  | c :: rest =>
    if c == '\n' || c == '\r' then [c :: rest]
    else (c :: rest) :: afterDotStar rest

/-- All suffixes after matching `OR` or `AND` case-insensitively
(regex alternative `(OR|AND)`). -/
def afterOrAnd (l : List Char) : List (List Char) :=
  (match l with
    | a :: b :: rest => if eqCI a 'O' && eqCI b 'R' then [rest] else []
    | _ => []) ++
  (match l with
    | a :: b :: c :: rest =>
      if eqCI a 'A' && eqCI b 'N' && eqCI c 'D' then [rest] else []
    | _ => [])

/-- Regex word character `\w` = `[A-Za-z0-9_]`. -/
def isWordCh (c : Char) : Bool :=
  ('A' ≤ c && c ≤ 'Z') || ('a' ≤ c && c ≤ 'z') || ('0' ≤ c && c ≤ '9') || c == '_'

/-- A match of `\b(OR|AND)\s+1\s*=1\b` starts at the head of `l`, `prev`
being the character immediately before (none at the start of the text). -/
def falseCondAt (prev : Option Char) (l : List Char) : Bool :=
  (match prev with
    | none => true
    | some p => !(isWordCh p)) &&
  (afterOrAnd l).any fun r1 =>
    (afterWsPlus r1).any fun r2 =>
      match r2 with
      | '1' :: r3 =>
        (afterWsStar r3).any fun r4 =>
          match r4 with
          | '=' :: '1' :: r5 =>
            match r5 with
            | [] => true
            | d :: _ => !(isWordCh d)
          | _ => false
      | _ => false

/-- Scan of `falseCondAt` over every start position, tracking the
previous character. -/
def falseCondFrom (prev : Option Char) : List Char → Bool
  | [] => false
  | c :: rest => falseCondAt prev (c :: rest) || falseCondFrom (some c) rest

/-- `falseConditionPattern.test(normalizedSql)` from `validateSql`:
the regex `\b(OR|AND)\s+1\s*=1\b` (case-insensitive) matches somewhere. -/
def falseCondMatch (l : List Char) : Bool :=
  falseCondFrom none l

/-- Injection pattern 1, regex `(;|--|#|\/\*|\*\/)`: a statement
separator or comment sequence occurs. -/
def hasCommentOrSeparator (l : List Char) : Bool :=
  hasSubstrCh [';'] l || hasSubstrCh ['-', '-'] l || hasSubstrCh ['#'] l ||
  hasSubstrCh ['/', '*'] l || hasSubstrCh ['*', '/'] l

/-- A quote character (`'` or `"`). -/
def isQuoteCh (c : Char) : Bool := c == '\'' || c == '\"'

/-- A match of injection pattern 2,
`('|")\s*(OR|AND)\s*('|").*('|")\s*=\s*('|")` (case-insensitive), starts
at the head of `l`. -/
def quotedTautoAt (l : List Char) : Bool :=
  match l with
  | [] => false
  | q1 :: r0 =>
    isQuoteCh q1 &&
    (afterWsStar r0).any fun r1 =>
      (afterOrAnd r1).any fun r2 =>
        (afterWsStar r2).any fun r3 =>
          match r3 with
          | [] => false
          | q2 :: r4 =>
            isQuoteCh q2 &&
            (afterDotStar r4).any fun r5 =>
              match r5 with
              | [] => false
              | q3 :: r6 =>
                isQuoteCh q3 &&
                (afterWsStar r6).any fun r7 =>
                  match r7 with
                  | '=' :: r8 =>
                    (afterWsStar r8).any fun r9 =>
                      match r9 with
                      | [] => false
                      | q4 :: _ => isQuoteCh q4
                  | _ => false

/-- Injection pattern 2 matches somewhere in `l`. -/
def quotedTautoMatch : List Char → Bool
  | [] => false
  | c :: rest => quotedTautoAt (c :: rest) || quotedTautoMatch rest

/-- A match of injection pattern 3, `EXEC\s*\(|SP_|XP_`
(case-insensitive), starts at the head of `l`. -/
def execMarkerAt (l : List Char) : Bool :=
  (match l with
    | a :: b :: c :: d :: r =>
      eqCI a 'E' && eqCI b 'X' && eqCI c 'E' && eqCI d 'C' &&
      (afterWsStar r).any fun r1 =>
        match r1 with
        | '(' :: _ => true
        | _ => false
    | _ => false) ||
  hasPrefixCI ['S', 'P', '_'] l || hasPrefixCI ['X', 'P', '_'] l

/-- Injection pattern 3 matches somewhere in `l`. -/
def execMarkerMatch : List Char → Bool
  | [] => false
  | c :: rest => execMarkerAt (c :: rest) || execMarkerMatch rest

/-- `QueryService.containsSqlInjectionPatterns(sql)`: any of the three
injection regexes matches the (raw, un-normalized) SQL text. -/
def containsSqlInjectionPatterns (sql : String) : Bool :=
  hasCommentOrSeparator sql.toList ||
  quotedTautoMatch sql.toList ||
  execMarkerMatch sql.toList

/-- `ValidationResult` from QueryService: validity flag plus optional
message / error reason. -/
structure ValidationResult where
  valid : Bool
  message : Option String
  error : Option String
  deriving Repr, DecidableEq

/-- The destructive-schema keyword denylist of both validators. -/
def dangerousKeywords : List String := ["DROP", "TRUNCATE", "ALTER", "CREATE"]

/-- The data-mutation keyword denylist of the read-path validator. -/
def writeOperations : List String := ["DELETE", "UPDATE", "INSERT"]

/-- First keyword of `ks` contained in the normalized text (the loop
`for (const keyword of ...) if (normalizedSql.includes(keyword))`). -/
def findBadKeyword (norm : List Char) (ks : List String) : Option String :=
  ks.find? fun k => hasSubstrCh k.toList norm

/-- The rejection message `Keyword não permitido: ${keyword}`. -/
def keywordMsg (k : String) : String := "Keyword não permitido: " ++ k

/-- The rejection message for injection patterns. -/
def injectionMsg : String := "Padrão de injeção SQL detectado"

/-- `QueryService.validateSql` (read-path validator).  The source checks
`containsSqlInjectionPatterns` twice in a row with identical outcome;
the second, redundant check is collapsed here. -/
def validateSql (sql : String) : ValidationResult :=
  let normalizedSql := normChars sql
  match findBadKeyword normalizedSql dangerousKeywords with
  | some k => ⟨false, none, some (keywordMsg k)⟩
  | none =>
    match findBadKeyword normalizedSql writeOperations with
    | some k => ⟨false, none, some (keywordMsg k)⟩
    | none =>
      if containsSqlInjectionPatterns sql then
        ⟨false, none, some injectionMsg⟩
      else if falseCondMatch normalizedSql then
        ⟨false, none, some injectionMsg⟩
      else
        ⟨true, some "Consulta válida", none⟩

/-- `QueryService.validateSqlForTransaction` (write-path validator):
destructive keywords and injection patterns only — no data-mutation
keyword check and no bare numeric tautology (`OR 1=1`) check. -/
def validateSqlForTransaction (sql : String) : ValidationResult :=
  let normalizedSql := normChars sql
  match findBadKeyword normalizedSql dangerousKeywords with
  | some k => ⟨false, none, some (keywordMsg k)⟩
  | none =>
    if containsSqlInjectionPatterns sql then
      ⟨false, none, some injectionMsg⟩
    else
      ⟨true, some "Consulta válida", none⟩

example : (validateSql "SELECT * FROM users WHERE id = 1 OR 1=1").error
    = some injectionMsg := by decide

example : (validateSqlForTransaction "SELECT * FROM t WHERE id=1 OR 1=1").valid
    = true := by decide

example : falseCondMatch (normChars "SELECT * FROM t WHERE id=1 OR 1=1")
    = true := by decide

example : (validateSql "drop table x").error = some (keywordMsg "DROP") := by
  decide

example : (validateSqlForTransaction "UPDATE t SET a = 1 WHERE b = 2").valid
    = true := by decide

example : (validateSql "UPDATE t SET a = 1 WHERE b = 2").error
    = some (keywordMsg "UPDATE") := by decide

/-! ### Pool configuration sanitization (`ConnectionManager.connect`) -/

/-- The tarn.js allow-list `validPoolOptions` from `sanitizePoolConfig`. -/
def validPoolOptions : List String :=
  ["min", "max", "acquireTimeoutMillis", "createTimeoutMillis",
   "destroyTimeoutMillis", "idleTimeoutMillis", "reapIntervalMillis",
   "createRetryIntervalMillis", "validate", "afterCreate",
   "maxConnectionLifetimeMillis", "maxConnectionLifetimeJitterMillis",
   "acquireTimeout", "createTimeout", "destroyTimeout", "idleTimeout",
   "reapInterval", "createRetryInterval", "propagateCreateError"]

/-- The legacy-to-canonical `propertyMapping` from `sanitizePoolConfig`. -/
def propertyMapping : List (String × String) :=
  [("acquireTimeout", "acquireTimeoutMillis"),
   ("createTimeout", "createTimeoutMillis"),
   ("destroyTimeout", "destroyTimeoutMillis"),
   ("idleTimeout", "idleTimeoutMillis"),
   ("reapInterval", "reapIntervalMillis"),
   ("createRetryInterval", "createRetryIntervalMillis")]

/-- JavaScript object assignment `obj[k] = v` on an object modelled as an
association list in insertion order: an existing key keeps its position
and gets the new value, a new key is appended. -/
def setKey : List (String × Nat) → String → Nat → List (String × Nat)
  | [], k, v => [(k, v)]
  | (k', v') :: rest, k, v =>
    if k' = k then (k', v) :: rest else (k', v') :: setKey rest k v

/-- One iteration of the `for (const [key, value] of Object.entries(...))`
loop of `sanitizePoolConfig`. -/
def sanitizeStep (acc : List (String × Nat)) (kv : String × Nat) :
    List (String × Nat) :=
  match propertyMapping.lookup kv.1 with
  | some newKey =>
    if newKey ∈ validPoolOptions then setKey acc newKey kv.2 else acc
  | none =>
    if kv.1 ∈ validPoolOptions then setKey acc kv.1 kv.2 else acc

/-- `sanitizePoolConfig(poolOptions)` from `ConnectionManager.connect`:
translate legacy keys, filter through the allow-list, then default
`min`/`max` when absent.  The input object is modelled as an association
list in object-iteration (insertion) order. -/
def sanitizePoolConfig (poolOptions : List (String × Nat)) :
    List (String × Nat) :=
  let sanitizedPool := poolOptions.foldl sanitizeStep []
  let sanitizedPool :=
    if (sanitizedPool.lookup "min").isNone then setKey sanitizedPool "min" 2
    else sanitizedPool
  if (sanitizedPool.lookup "max").isNone then setKey sanitizedPool "max" 10
  else sanitizedPool

/-- The canonical name a pool key contributes to, if it is kept at all:
a legacy key contributes under its mapped name; a non-legacy key on the
allow-list contributes under its own name. -/
def normalizeKey (k : String) : Option String :=
  match propertyMapping.lookup k with
  | some newKey => if newKey ∈ validPoolOptions then some newKey else none
  | none => if k ∈ validPoolOptions then some k else none

/-- The value of the LAST entry of the pool object that contributes to
canonical key `c` (JavaScript last-writer-wins). -/
def lastContribution (c : String) : List (String × Nat) → Option Nat
  | [] => none
  | (k, v) :: rest =>
    match lastContribution c rest with
    | some w => some w
    | none => if normalizeKey k = some c then some v else none

example : sanitizePoolConfig [("acquireTimeout", 5000), ("foo", 1)]
    = [("acquireTimeoutMillis", 5000), ("min", 2), ("max", 10)] := by decide

example : (sanitizePoolConfig
    [("acquireTimeoutMillis", 7000), ("acquireTimeout", 5000)]).lookup
    "acquireTimeoutMillis" = some 5000 := by decide

example : (sanitizePoolConfig
    [("acquireTimeout", 5000), ("acquireTimeoutMillis", 7000)]).lookup
    "acquireTimeoutMillis" = some 7000 := by decide

/-! ### Transaction execution (`QueryService.executeTransaction`) -/

/-- One entry of the `queries` array: `{ sql, bindings? }`. -/
structure TxQuery where
  sql : String
  bindings : Option (List Int)
  deriving Repr, DecidableEq

/-- `query.bindings || []` (an absent bindings value defaults to the
empty parameter list). -/
def bindingsOf (q : TxQuery) : List Int := q.bindings.getD []

/-- The driver oracle: `raw(sql, bindings)` either returns a result or
raises an error.  Modelled as a pure function, so re-running a statement
is deterministic. -/
def Driver : Type := String → List Int → Except String Nat

/-- The body of the `transaction(async (trx) => ...)` callback: iterate
the queries in array order, validate each with the write-path validator,
throw on invalid SQL, execute via the driver, accumulate results. -/
def txBody (exec : Driver) : List TxQuery → Except String (List Nat)
  | [] => Except.ok []
  | q :: rest =>
    let validation := validateSqlForTransaction q.sql
    if validation.valid then
      match exec q.sql (bindingsOf q) with
      | Except.error e => Except.error e
      | Except.ok r =>
        match txBody exec rest with
        | Except.error e => Except.error e
        | Except.ok rs => Except.ok (r :: rs)
    else
      Except.error ("Consulta inválida: " ++ validation.error.getD "")

/-- Model of the external transaction primitive (knex), per its
contract: a callback that completes commits the transaction and yields
its value; a callback that throws rolls back (commits nothing) and
re-raises.  The second component records whether a commit happened. -/
def runTransaction (body : Except String (List Nat)) :
    Except String (List Nat) × Bool :=
  match body with
  | Except.ok v => (Except.ok v, true)
  | Except.error e => (Except.error e, false)

/-- `QueryService.executeTransaction(queries)` (with no plugin manager
set, the configuration in which no hook can interpose): fails when not
connected, otherwise runs the per-query loop inside one transaction. -/
def executeTransaction (connected : Bool) (exec : Driver)
    (queries : List TxQuery) : Except String (List Nat) × Bool :=
  if connected then runTransaction (txBody exec queries)
  else (Except.error "Conexão com o banco de dados não está ativa", false)

/-- The per-statement results when every statement succeeds, in input
order (spec-side description of the success case). -/
def txResults (exec : Driver) (queries : List TxQuery) : List Nat :=
  queries.map fun q =>
    match exec q.sql (bindingsOf q) with
    | Except.ok r => r
    | Except.error _ => 0

/-- A query entry succeeds: it passes the write-path validator and the
driver executes it without error. -/
def txEntryOk (exec : Driver) (q : TxQuery) : Prop :=
  (validateSqlForTransaction q.sql).valid = true ∧
  ∃ r, exec q.sql (bindingsOf q) = Except.ok r

instance (exec : Driver) (q : TxQuery) : Decidable (txEntryOk exec q) := by
  unfold txEntryOk
  have : Decidable (∃ r, exec q.sql (bindingsOf q) = Except.ok r) := by
    match h : exec q.sql (bindingsOf q) with
    | Except.ok r => exact isTrue ⟨r, rfl⟩
    | Except.error e => exact isFalse (by simp)
  exact instDecidableAnd

/-! ### Single query execution (`QueryService.executeQuery`) -/

/-- Observable events of a single `executeQuery` call: hook dispatches,
the validation step, and driver interaction. -/
inductive QEvent where
  | beforeQuery (sql : String)
  | validate (sql : String)
  | driverExec (sql : String)
  | afterQuery (r : Nat)
  | onError (e : String)
  deriving Repr, DecidableEq

/-- Result and ordered event trace of one `executeQuery` call. -/
structure ExecOutcome where
  result : Except String Nat
  events : List QEvent
  deriving Repr

/-- `QueryService.executeQuery(sql, bindings?, options?)`: the
not-connected guard comes first, before any hook dispatch, validation or
driver interaction; then `beforeQuery` is dispatched, the SQL is
validated by the read-path validator (rejection raises and is routed
through `onError` by the catch block), and finally the driver runs
(`afterQuery` on success, `onError` on failure).  `hasPlugin` models
whether a plugin manager is set; `options` only flows into the hook
payload and affects nothing else. -/
def executeQuery (connected : Bool) (hasPlugin : Bool) (exec : Driver)
    (sql : String) (bindings : Option (List Int))
    (_options : List (String × Int)) : ExecOutcome :=
  if !connected then
    ⟨Except.error "Conexão com o banco de dados não está ativa", []⟩
  else
    let ev0 : List QEvent := if hasPlugin then [QEvent.beforeQuery sql] else []
    let validation := validateSql sql
    let ev1 := ev0 ++ [QEvent.validate sql]
    if validation.valid then
      match exec sql (bindings.getD []) with
      | Except.ok r =>
        ⟨Except.ok r, ev1 ++ [QEvent.driverExec sql] ++
          (if hasPlugin then [QEvent.afterQuery r] else [])⟩
      | Except.error e =>
        ⟨Except.error e, ev1 ++ [QEvent.driverExec sql] ++
          (if hasPlugin then [QEvent.onError e] else [])⟩
    else
      let msg := "Consulta inválida: " ++ validation.error.getD ""
      ⟨Except.error msg, ev1 ++
        (if hasPlugin then [QEvent.onError msg] else [])⟩

/-! ### Select builder (`QueryService.executeSelect`) -/

/-- Order direction (`'asc' | 'desc'`). -/
inductive Dir where
  | asc
  | desc
  deriving Repr, DecidableEq

/-- The `orderBy` option: field plus optional direction. -/
structure OrderBySpec where
  field : String
  direction : Option Dir
  deriving Repr, DecidableEq

/-- `SelectOptions`: optional limit, offset and ordering. -/
structure SelectOptions where
  limit : Option Nat
  offset : Option Nat
  orderBy : Option OrderBySpec
  deriving Repr, DecidableEq

/-- The knex query-builder state accumulated by `executeSelect`. -/
structure QueryBuilder where
  table : String
  wheres : List (String × Int)
  limit : Option Nat
  offset : Option Nat
  orderBy : Option (String × Dir)
  deriving Repr, DecidableEq

/-- `QueryService.executeSelect`'s builder construction: equality
`where` clauses from the conditions map in iteration order, then
`if (options?.limit)` / `if (options?.offset)` (JavaScript truthiness:
a `0` value skips the clause exactly like an absent one), then
`orderBy(field, direction || 'asc')`. -/
def buildSelect (tableName : String) (conditions : Option (List (String × Int)))
    (options : Option SelectOptions) : QueryBuilder :=
  let qb : QueryBuilder := ⟨tableName, [], none, none, none⟩
  let qb :=
    match conditions with
    | none => qb
    | some cs =>
      cs.foldl (fun b kv => { b with wheres := b.wheres ++ [kv] }) qb
  let qb :=
    match options.bind (·.limit) with
    | some n => if n ≠ 0 then { qb with limit := some n } else qb
    | none => qb
  let qb :=
    match options.bind (·.offset) with
    | some n => if n ≠ 0 then { qb with offset := some n } else qb
    | none => qb
  match options.bind (·.orderBy) with
  | some ob => { qb with orderBy := some (ob.field, ob.direction.getD Dir.asc) }
  | none => qb

/-- A result row: a finite map from column name to value. -/
abbrev Row : Type := List (String × Int)

/-- Column lookup on a row (absent columns read as 0). -/
def rowGet (r : Row) (k : String) : Int := (r.lookup k).getD 0

/-- Stable insertion of a row into a sorted list by key order `le`. -/
def insertSorted (le : Row → Row → Bool) (r : Row) : List Row → List Row
  | [] => [r]
  | x :: xs =>
    if le x r then x :: insertSorted le r xs else r :: x :: xs

/-- Stable insertion sort by `le`. -/
def sortRows (le : Row → Row → Bool) : List Row → List Row
  | [] => []
  | x :: xs => insertSorted le x (sortRows le xs)

/-- SQL semantics of a built query over a table of rows (the driver
model): filter by the conjunction of equality clauses, sort by the
order-by clause, skip `offset` rows, then take `limit` rows. -/
def runSelect (qb : QueryBuilder) (rows : List Row) : List Row :=
  let filtered := rows.filter fun r =>
    qb.wheres.all fun kv => rowGet r kv.1 == kv.2
  let ordered :=
    match qb.orderBy with
    | none => filtered
    | some (fld, Dir.asc) =>
      sortRows (fun a b => rowGet a fld ≤ rowGet b fld) filtered
    | some (fld, Dir.desc) =>
      sortRows (fun a b => rowGet b fld ≤ rowGet a fld) filtered
  let skipped := ordered.drop (qb.offset.getD 0)
  match qb.limit with
  | some n => skipped.take n
  | none => skipped

/-- Modelled from the spec: the query `executeSelect` is claimed to be
equivalent to — filter rows by equality on each conditions key ANDed
together, order by the single orderBy field in the given direction
(ascending when unspecified), skip the offset number of rows when
given, and take the limit number of rows when given. -/
def specSelect (conditions : Option (List (String × Int)))
    (options : Option SelectOptions) (rows : List Row) : List Row :=
  let filtered := rows.filter fun r =>
    (conditions.getD []).all fun kv => rowGet r kv.1 == kv.2
  let ordered :=
    match options.bind (·.orderBy) with
    | none => filtered
    | some ob =>
      match ob.direction.getD Dir.asc with
      | Dir.asc => sortRows (fun a b => rowGet a ob.field ≤ rowGet b ob.field) filtered
      | Dir.desc => sortRows (fun a b => rowGet b ob.field ≤ rowGet a ob.field) filtered
  let skipped :=
    match options.bind (·.offset) with
    | some n => ordered.drop n
    | none => ordered
  match options.bind (·.limit) with
  | some n => skipped.take n
  | none => skipped

/-! ### Connection lifecycle (`ConnectionManager.connect`) -/

/-- Observable events of a `connect` call. -/
inductive CEvent where
  | beforeConnect
  | createHandle
  | probe
  | afterConnect
  | onError (e : String)
  deriving Repr, DecidableEq

/-- The `ConnectionManager` fields relevant to the lifecycle:
`isConnectedFlag` and the `connection` handle (modelled opaquely). -/
structure ConnState where
  isConnectedFlag : Bool
  connection : Option Unit
  deriving Repr, DecidableEq

/-- `ConnectionManager.isConnected()`. -/
def isConnected (st : ConnState) : Bool := st.isConnectedFlag

/-- `ConnectionManager.getConnection()`: the handle when the flag is
set, else null. -/
def getConnection (st : ConnState) : Option Unit :=
  if st.isConnectedFlag then st.connection else none

/-- The environment a `connect` call runs against: whether a plugin
manager is set, the outcome of each fallible step (a `some e` means that
step throws with message `e`), the configured client library path and
whether it exists on disk. -/
structure ConnEnv where
  hasPlugin : Bool
  beforeConnectFails : Option String
  clientLibPath : Option String
  clientLibExists : Bool
  probeFails : Option String
  afterConnectFails : Option String
  deriving Repr, DecidableEq

/-- Outcome of a `connect` call: final state, result (`ok` carries the
success message), ordered event trace. -/
structure ConnectOutcome where
  state : ConnState
  result : Except String String
  events : List CEvent
  deriving Repr

/-- The catch block of `ConnectionManager.connect`: clear the flag,
discard the handle, dispatch `onError` when a plugin manager is set, and
re-raise the wrapped failure. -/
def connectCatch (env : ConnEnv) (evs : List CEvent) (e : String) :
    ConnectOutcome :=
  ⟨⟨false, none⟩,
   Except.error ("Falha na conexão: " ++ e),
   evs ++ (if env.hasPlugin then [CEvent.onError e] else [])⟩

/-- `ConnectionManager.connect()`: inside one try block — dispatch
`beforeConnect` (when a plugin manager is set), sanitize the pool
config (pure), fail fast when a configured client library path does not
exist, build the knex handle and store it in `this.connection`, run the
liveness probe, set the connected flag, dispatch `afterConnect`, return
success.  Any step that throws lands in the catch block, which resets
the state, dispatches `onError` and re-raises a wrapped failure. -/
def connect (env : ConnEnv) : ConnectOutcome :=
  let ev0 : List CEvent := if env.hasPlugin then [CEvent.beforeConnect] else []
  match env.beforeConnectFails, env.hasPlugin with
  | some e, true => connectCatch env ev0 e
  | _, _ =>
    match env.clientLibPath, env.clientLibExists with
    | some p, false =>
      connectCatch env ev0 ("Client library file not found at: " ++ p)
    | _, _ =>
      let ev1 := ev0 ++ [CEvent.createHandle]
      let ev2 := ev1 ++ [CEvent.probe]
      match env.probeFails with
      | some e => connectCatch env ev2 e
      | none =>
        match env.afterConnectFails, env.hasPlugin with
        | some e, true =>
          connectCatch env (ev2 ++ [CEvent.afterConnect]) e
        | _, _ =>
          ⟨⟨true, some ()⟩,
           Except.ok "Conexão estabelecida com sucesso",
           ev2 ++ (if env.hasPlugin then [CEvent.afterConnect] else [])⟩

/-! ### Hook dispatch (`PluginManager`) -/

/-- The lifecycle phases a plugin can observe. -/
inductive Phase where
  | init
  | beforeConnect
  | afterConnect
  | beforeQuery
  | afterQuery
  | beforeDisconnect
  | onError
  | destroy
  deriving Repr, DecidableEq

/-- A registered plugin: a name and, per phase, either no handler
(capability absent) or a handler that returns unit or throws. -/
structure Plugin where
  name : String
  handlers : Phase → Option (Except String Unit)

/-- `PluginManager.register(plugin)`: throws unless the plugin
implements `init`; otherwise appends to the ordered plugin list. -/
def register (ps : List Plugin) (p : Plugin) : Except String (List Plugin) :=
  if (p.handlers Phase.init).isSome then Except.ok (ps ++ [p])
  else Except.error "Plugin deve implementar o método init"

/-- One phase-dispatch loop of `PluginManager` (`init`, `beforeConnect`,
..., `destroy` all share this shape): iterate the plugin list in
registration order, invoke the phase's handler on every plugin that
implements it, skip the ones that do not; a throwing handler aborts the
remaining iteration and propagates.  Returns the ordered list of plugin
names actually invoked and the propagated error, if any. -/
def dispatchPhase (ph : Phase) : List Plugin → List String × Option String
  | [] => ([], none)
  | p :: rest =>
    match p.handlers ph with
    | none => dispatchPhase ph rest
    | some (Except.ok _) =>
      let tr := dispatchPhase ph rest
      (p.name :: tr.1, tr.2)
    | some (Except.error e) => ([p.name], some e)

/-- The names of the plugins that implement phase `ph`, in registration
order (the expected trace of a fully successful dispatch). -/
def implementerNames (ph : Phase) (ps : List Plugin) : List String :=
  ps.filterMap fun p => if (p.handlers ph).isSome then some p.name else none

/-! ## Helper lemmas -/

theorem hasPrefixCh_append (k t : List Char) : hasPrefixCh k (k ++ t) = true := by
  induction k with
  | nil => rfl
  | cons a as ih => simp [hasPrefixCh, ih]

theorem hasSubstrCh_of_parts (k s t : List Char) :
    hasSubstrCh k (s ++ k ++ t) = true := by
  induction s with
  | nil =>
    cases k with
    | nil =>
      cases t with
      | nil => rfl
      | cons c r =>
        show (hasPrefixCh [] (c :: r) || hasSubstrCh [] r) = true
        rfl
    | cons a as =>
      show (hasPrefixCh (a :: as) (a :: (as ++ t))
          || hasSubstrCh (a :: as) (as ++ t)) = true
      have h : hasPrefixCh (a :: as) (a :: (as ++ t)) = true :=
        hasPrefixCh_append (a :: as) t
      rw [h, Bool.true_or]
  | cons c s' ih =>
    show (hasPrefixCh k (c :: (s' ++ k ++ t))
        || hasSubstrCh k (s' ++ k ++ t)) = true
    rw [ih, Bool.or_true]

theorem hasPrefixCI_exists (k m : List Char) (h : hasPrefixCI k m = true) :
    ∃ k0 t, m = k0 ++ t ∧ k0.map Char.toUpper = k.map Char.toUpper := by
  induction k generalizing m with
  | nil => exact ⟨[], m, rfl, rfl⟩
  | cons a as ih =>
    cases m with
    | nil => simp [hasPrefixCI] at h
    | cons b bs =>
      simp only [hasPrefixCI, eqCI, Bool.and_eq_true, beq_iff_eq] at h
      obtain ⟨hab, hrest⟩ := h
      obtain ⟨k0, t, rfl, hmap⟩ := ih bs hrest
      exact ⟨b :: k0, t, rfl, by simp [hmap, hab]⟩

theorem hasSubstrCI_exists (k m : List Char) (h : hasSubstrCI k m = true) :
    ∃ s k0 t, m = s ++ k0 ++ t ∧ k0.map Char.toUpper = k.map Char.toUpper := by
  induction m with
  | nil =>
    obtain ⟨k0, t, h1, h2⟩ := hasPrefixCI_exists k [] h
    exact ⟨[], k0, t, by simp [← h1], h2⟩
  | cons c rest ih =>
    have h' : hasPrefixCI k (c :: rest) = true ∨ hasSubstrCI k rest = true := by
      simpa [hasSubstrCI] using h
    rcases h' with h1 | h2
    · obtain ⟨k0, t, heq, hmap⟩ := hasPrefixCI_exists k (c :: rest) h1
      exact ⟨[], k0, t, by simp [← heq], hmap⟩
    · obtain ⟨s, k0, t, heq, hmap⟩ := ih h2
      exact ⟨c :: s, k0, t, by simp [heq], hmap⟩

theorem dropWhile_append_cons (p : Char → Bool) (s t : List Char) (c : Char)
    (hc : p c = false) :
    List.dropWhile p (s ++ c :: t) = List.dropWhile p s ++ c :: t := by
  induction s with
  | nil => simp [List.dropWhile_cons, hc]
  | cons a s' ih =>
    by_cases ha : p a
    · simp [List.dropWhile_cons, ha, ih]
    · simp [List.dropWhile_cons, ha]

theorem trimList_parts (s k t : List Char) (hk : k ≠ [])
    (hws : ∀ c ∈ k, jsWs c = false) :
    ∃ sp tp, trimList (s ++ k ++ t) = sp ++ k ++ tp := by
  cases k with
  | nil => exact absurd rfl hk
  | cons c k' =>
    have hc : jsWs c = false := hws c (List.mem_cons_self c k')
    cases hrev : (c :: k').reverse with
    | nil => simp at hrev
    | cons d kr =>
      have hd : d ∈ c :: k' := by
        rw [← List.mem_reverse, hrev]
        exact List.mem_cons_self d kr
      have hdws : jsWs d = false := hws d hd
      have hrev' : kr.reverse ++ [d] = c :: k' := by
        have h5 := congrArg List.reverse hrev
        simp at h5
        exact h5.symm
      refine ⟨List.dropWhile jsWs s,
              (List.dropWhile jsWs t.reverse).reverse, ?_⟩
      unfold trimList
      rw [show s ++ c :: k' ++ t = s ++ c :: (k' ++ t) by simp,
          dropWhile_append_cons jsWs s (k' ++ t) c hc,
          show List.dropWhile jsWs s ++ c :: (k' ++ t)
              = (List.dropWhile jsWs s ++ (c :: k')) ++ t by simp,
          List.reverse_append, List.reverse_append, hrev, List.cons_append,
          dropWhile_append_cons jsWs t.reverse
            (kr ++ (List.dropWhile jsWs s).reverse) d hdws,
          ← hrev']
      simp [List.reverse_append, List.reverse_reverse, List.append_assoc]

theorem ws_toUpper_fix (c : Char) (h : jsWs c = true) : Char.toUpper c = c := by
  simp only [jsWs, Bool.or_eq_true, beq_iff_eq] at h
  rcases h with ((((rfl | rfl) | rfl) | rfl) | rfl) | rfl <;> decide

theorem substrCI_normChars (sql : String) (K : List Char)
    (hfix : K.map Char.toUpper = K)
    (hws : ∀ x ∈ K, jsWs x = false)
    (hne : K ≠ [])
    (h : hasSubstrCI K sql.toList = true) :
    hasSubstrCh K (normChars sql) = true := by
  obtain ⟨s, k0, t, heq, hmap⟩ := hasSubstrCI_exists K sql.toList h
  have hk0ws : ∀ x ∈ k0, jsWs x = false := by
    intro x hx
    by_contra hxx
    have hxx' : jsWs x = true := by
      cases hb : jsWs x with
      | false => exact absurd hb hxx
      | true => rfl
    have hup : Char.toUpper x = x := ws_toUpper_fix x hxx'
    have hmem : Char.toUpper x ∈ List.map Char.toUpper k0 :=
      List.mem_map_of_mem Char.toUpper hx
    rw [hmap, hfix, hup] at hmem
    rw [hws x hmem] at hxx'
    exact Bool.false_ne_true hxx'
  have hk0ne : k0 ≠ [] := by
    intro hnil
    subst hnil
    have hKnil : K.map Char.toUpper = [] := hmap.symm
    rw [List.map_eq_nil_iff] at hKnil
    exact hne hKnil
  obtain ⟨sp, tp, htrim⟩ := trimList_parts s k0 t hk0ne hk0ws
  unfold normChars
  rw [heq, htrim, List.map_append, List.map_append, hmap, hfix]
  exact hasSubstrCh_of_parts K _ _

theorem findBad_some (norm : List Char) (ks : List String)
    (h : ∃ k ∈ ks, hasSubstrCh k.toList norm = true) :
    ∃ k', findBadKeyword norm ks = some k' ∧ k' ∈ ks ∧
      hasSubstrCh k'.toList norm = true := by
  have hs : (ks.find? fun k => hasSubstrCh k.toList norm).isSome = true :=
    List.find?_isSome.mpr h
  obtain ⟨k', hk'⟩ := Option.isSome_iff_exists.mp hs
  have hp := @List.find?_some String (fun k => hasSubstrCh k.toList norm)
    k' ks hk'
  exact ⟨k', hk', List.mem_of_find?_eq_some hk', hp⟩

theorem findBad_none (norm : List Char) (ks : List String)
    (h : ∀ k ∈ ks, hasSubstrCh k.toList norm = false) :
    findBadKeyword norm ks = none := by
  apply List.find?_eq_none.mpr
  intro x hx
  have hx' := h x hx
  simp only [String.toList] at hx'
  simp [hx']

theorem lookup_setKey (l : List (String × Nat)) (k : String) (v : Nat)
    (c : String) :
    (setKey l k v).lookup c = if c = k then some v else l.lookup c := by
  induction l with
  | nil =>
    by_cases h : c = k
    · subst h
      simp [setKey, List.lookup]
    · have hb : (c == k) = false := beq_eq_false_iff_ne.mpr h
      simp [setKey, List.lookup, hb, h]
  | cons kv rest ih =>
    obtain ⟨k', v'⟩ := kv
    by_cases h1 : k' = k
    · subst h1
      by_cases h2 : c = k'
      · subst h2
        simp [setKey, List.lookup]
      · have hb : (c == k') = false := beq_eq_false_iff_ne.mpr h2
        simp [setKey, List.lookup, hb, h2]
    · by_cases h2 : c = k'
      · have hb : (c == k') = true := beq_iff_eq.mpr h2
        have hck : ¬ c = k := fun hh => h1 (h2.symm.trans hh)
        simp [setKey, List.lookup, h1, hb, hck]
      · have hb : (c == k') = false := beq_eq_false_iff_ne.mpr h2
        simp [setKey, List.lookup, h1, hb, ih]

theorem sanitizeStep_norm (acc : List (String × Nat)) (kv : String × Nat) :
    sanitizeStep acc kv
      = match normalizeKey kv.1 with
        | some nk => setKey acc nk kv.2
        | none => acc := by
  unfold sanitizeStep normalizeKey
  cases propertyMapping.lookup kv.1 with
  | none => by_cases h : kv.1 ∈ validPoolOptions <;> simp [h]
  | some nk => by_cases h : nk ∈ validPoolOptions <;> simp [h]

theorem lookup_foldl_sanitize (pool : List (String × Nat))
    (acc : List (String × Nat)) (c : String) :
    (pool.foldl sanitizeStep acc).lookup c
      = match lastContribution c pool with
        | some v => some v
        | none => acc.lookup c := by
  induction pool generalizing acc with
  | nil => simp [lastContribution]
  | cons kv rest ih =>
    obtain ⟨k, v⟩ := kv
    rw [List.foldl_cons, ih, sanitizeStep_norm]
    cases hlc : lastContribution c rest with
    | some w => simp [lastContribution, hlc]
    | none =>
      simp only [lastContribution, hlc]
      cases hnk : normalizeKey k with
      | none => simp [hnk]
      | some nk =>
        by_cases hc : nk = c
        · subst hc
          simp [lookup_setKey, hnk]
        · have hcc : ¬ c = nk := fun h => hc h.symm
          simp [lookup_setKey, hnk, hc, hcc]

theorem normalizeKey_mem (k c : String) (h : normalizeKey k = some c) :
    c ∈ validPoolOptions := by
  unfold normalizeKey at h
  cases hmap : propertyMapping.lookup k with
  | some nk =>
    rw [hmap] at h
    by_cases hval : nk ∈ validPoolOptions
    · simp [hval] at h
      subst h
      exact hval
    · simp [hval] at h
  | none =>
    rw [hmap] at h
    by_cases hval : k ∈ validPoolOptions
    · simp [hval] at h
      subst h
      exact hval
    · simp [hval] at h

theorem lastContribution_none (c : String)
    (h : ∀ k, normalizeKey k ≠ some c) (pool : List (String × Nat)) :
    lastContribution c pool = none := by
  induction pool with
  | nil => rfl
  | cons kv rest ih =>
    obtain ⟨k, v⟩ := kv
    simp [lastContribution, ih, h k]

theorem lookup_pair_mem {β : Type} (k : String) (m : List (String × β))
    (v : β) (h : m.lookup k = some v) : (k, v) ∈ m := by
  induction m with
  | nil => simp [List.lookup] at h
  | cons kv rest ih =>
    obtain ⟨k', v'⟩ := kv
    by_cases hk : k = k'
    · subst hk
      simp [List.lookup] at h
      subst h
      exact List.mem_cons_self _ _
    · have hbeq : (k == k') = false := beq_eq_false_iff_ne.mpr hk
      simp [List.lookup, hbeq] at h
      exact List.mem_cons_of_mem _ (ih h)

theorem normalizeKey_not_legacy (leg : String)
    (hlook : (propertyMapping.lookup leg).isSome = true)
    (hnotval : ∀ p ∈ propertyMapping, p.2 ≠ leg) :
    ∀ k, normalizeKey k ≠ some leg := by
  intro k hk
  unfold normalizeKey at hk
  cases hmap : propertyMapping.lookup k with
  | some nk =>
    rw [hmap] at hk
    by_cases hval : nk ∈ validPoolOptions
    · simp [hval] at hk
      subst hk
      exact hnotval (k, nk) (lookup_pair_mem k propertyMapping nk hmap) rfl
    · simp [hval] at hk
  | none =>
    rw [hmap] at hk
    by_cases hval : k ∈ validPoolOptions
    · simp [hval] at hk
      subst hk
      rw [hmap] at hlook
      simp at hlook
    · simp [hval] at hk

/-! ## Claim theorems -/

/-- C3, counterexample: when the canonical key precedes its legacy key
in object-iteration order, the legacy entry is processed later and
overwrites it — the legacy value, not the canonical one, ends up in the
sanitized pool, refuting "the canonical key's value wins". -/
theorem sanitizePoolConfig_canonical_loses :
    (sanitizePoolConfig
        [("acquireTimeoutMillis", 7000), ("acquireTimeout", 5000)]).lookup
      "acquireTimeoutMillis" = some 5000 ∧
    (sanitizePoolConfig
        [("acquireTimeoutMillis", 7000), ("acquireTimeout", 5000)]).lookup
      "acquireTimeoutMillis" ≠ some 7000 :=
  ⟨by decide, by decide⟩

/-- C3, amended: legacy keys are translated (no legacy name survives
into the sanitized pool), keys outside the allow-list are silently
dropped, and for every canonical key other than the defaulted `min` and
`max` the surviving value is that of the LAST pool entry (in
object-iteration order) normalizing to it — so when both a legacy key
and its canonical key are present, the later one wins, and the canonical
key's value wins only when it appears after the legacy key. -/
theorem sanitizePoolConfig_characterization (pool : List (String × Nat)) :
    (∀ c, c ∉ validPoolOptions → (sanitizePoolConfig pool).lookup c = none) ∧
    (∀ leg ∈ propertyMapping.map Prod.fst,
        (sanitizePoolConfig pool).lookup leg = none) ∧
    (∀ c, c ≠ "min" → c ≠ "max" →
        (sanitizePoolConfig pool).lookup c = lastContribution c pool) := by
  have main : ∀ c, c ≠ "min" → c ≠ "max" →
      (sanitizePoolConfig pool).lookup c = lastContribution c pool := by
    intro c hmin hmax
    unfold sanitizePoolConfig
    have h2 : ∀ s : List (String × Nat),
        ((if (s.lookup "max").isNone then setKey s "max" 10 else s).lookup c)
          = s.lookup c := by
      intro s
      by_cases hb : (s.lookup "max").isNone <;> simp [hb, lookup_setKey, hmax]
    have h1 : ∀ s : List (String × Nat),
        ((if (s.lookup "min").isNone then setKey s "min" 2 else s).lookup c)
          = s.lookup c := by
      intro s
      by_cases hb : (s.lookup "min").isNone <;> simp [hb, lookup_setKey, hmin]
    rw [h2, h1, lookup_foldl_sanitize]
    cases lastContribution c pool <;> rfl
  refine ⟨?_, ?_, main⟩
  · intro c hc
    have hmin : c ≠ "min" := fun h => hc (h ▸ (by decide))
    have hmax : c ≠ "max" := fun h => hc (h ▸ (by decide))
    rw [main c hmin hmax]
    exact lastContribution_none c
      (fun k hk => hc (normalizeKey_mem k c hk)) pool
  · intro leg hleg
    simp only [propertyMapping, List.map_cons, List.map_nil, List.mem_cons,
      List.not_mem_nil, or_false] at hleg
    rcases hleg with rfl | rfl | rfl | rfl | rfl | rfl <;>
      · rw [main _ (by decide) (by decide)]
        exact lastContribution_none _
          (normalizeKey_not_legacy _ (by decide) (by decide)) pool

theorem foldl_wheres (cs : List (String × Int)) (qb : QueryBuilder) :
    cs.foldl (fun b kv => { b with wheres := b.wheres ++ [kv] }) qb
      = { qb with wheres := qb.wheres ++ cs } := by
  induction cs generalizing qb with
  | nil => simp
  | cons kv cs ih =>
    rw [List.foldl_cons, ih]
    simp

theorem getD_if_ne_zero (m : Nat) :
    (if m ≠ 0 then some m else (none : Option Nat)).getD 0 = m := by
  by_cases hm : m = 0 <;> simp [hm]

theorem getD_if_eq_zero (m : Nat) :
    (if m = 0 then (none : Option Nat) else some m).getD 0 = m := by
  by_cases hm : m = 0 <;> simp [hm]

/-- C7, counterexample: a given `limit: 0` is discarded by the falsy
check `if (options?.limit)`, so the built query keeps every row where
the claimed semantics ("applying the result-count limit when given")
keeps none. -/
theorem executeSelect_limit_zero_cex :
    runSelect (buildSelect "t" (some []) (some ⟨some 0, none, none⟩))
        [[("a", 1)]]
      = [[("a", 1)]] ∧
    specSelect (some []) (some ⟨some 0, none, none⟩) [[("a", 1)]] = [] :=
  ⟨by decide, by decide⟩

/-- C7, amended: for every table, conditions map, options and row set,
the query built by `executeSelect` is equivalent to filtering by the
ANDed equality conditions, ordering by the single orderBy field in the
given direction (ascending when unspecified), skipping the offset when
given and taking the limit when given — provided the given limit is
nonzero (a `limit: 0` is dropped by the falsy check and returns all
rows; a `offset: 0` is likewise dropped, which is semantically
harmless). -/
theorem executeSelect_equiv (t : String)
    (conds : Option (List (String × Int))) (opts : Option SelectOptions)
    (rows : List Row) (hlim : opts.bind (·.limit) ≠ some 0) :
    runSelect (buildSelect t conds opts) rows = specSelect conds opts rows := by
  rcases opts with _ | ⟨lim, off, ob⟩
  · rcases conds with _ | cs <;>
      simp [buildSelect, runSelect, specSelect, foldl_wheres]
  · replace hlim : lim ≠ some 0 := by simpa using hlim
    rcases lim with _ | n
    · rcases conds with _ | cs <;> rcases off with _ | m <;>
        rcases ob with _ | ⟨f, _ | d⟩ <;> (try cases d) <;>
        simp [buildSelect, runSelect, specSelect, foldl_wheres, apply_ite,
          getD_if_ne_zero, getD_if_eq_zero]
    · have hn : n ≠ 0 := fun h0 => hlim (by rw [h0])
      rcases conds with _ | cs <;> rcases off with _ | m <;>
        rcases ob with _ | ⟨f, _ | d⟩ <;> (try cases d) <;>
        simp [buildSelect, runSelect, specSelect, foldl_wheres, apply_ite,
          getD_if_ne_zero, getD_if_eq_zero, hn]

/-- Witness for the amended C7 at the claim's example call, over a small
concrete table. -/
theorem executeSelect_equiv_witness :
    runSelect (buildSelect "t" (some [("a", 1), ("b", 2)])
        (some ⟨some 10, some 5, some ⟨"x", some Dir.desc⟩⟩))
        [[("a", 1), ("b", 2), ("x", 3)], [("a", 2), ("x", 9)]]
      = specSelect (some [("a", 1), ("b", 2)])
        (some ⟨some 10, some 5, some ⟨"x", some Dir.desc⟩⟩)
        [[("a", 1), ("b", 2), ("x", 3)], [("a", 2), ("x", 9)]] :=
  executeSelect_equiv "t" (some [("a", 1), ("b", 2)])
    (some ⟨some 10, some 5, some ⟨"x", some Dir.desc⟩⟩)
    [[("a", 1), ("b", 2), ("x", 3)], [("a", 2), ("x", 9)]] (by decide)

theorem connectCatch_spec (env : ConnEnv) (evs : List CEvent) (e : String) :
    isConnected (connectCatch env evs e).state = false ∧
    getConnection (connectCatch env evs e).state = none ∧
    (env.hasPlugin = true →
      ∃ e2, CEvent.onError e2 ∈ (connectCatch env evs e).events) ∧
    ∃ e2, (connectCatch env evs e).result
        = Except.error ("Falha na conexão: " ++ e2) := by
  refine ⟨rfl, rfl, fun hp => ⟨e, ?_⟩, ⟨e, rfl⟩⟩
  simp [connectCatch, hp]

/-- C8: whenever `connect` fails — at the beforeConnect hook, the client
library check, the liveness probe or the afterConnect hook — the
connected flag is cleared and the handle discarded (so `isConnected`
reports false and `getConnection` returns null), the `onError` phase is
dispatched when a plugin manager is set, and the caller receives the
wrapped "Falha na conexão" failure carrying the underlying cause. -/
theorem connect_failure_resets_state (env : ConnEnv) (e0 : String)
    (h : (connect env).result = Except.error e0) :
    isConnected (connect env).state = false ∧
    getConnection (connect env).state = none ∧
    (env.hasPlugin = true →
      ∃ e, CEvent.onError e ∈ (connect env).events) ∧
    ∃ e, (connect env).result = Except.error ("Falha na conexão: " ++ e) := by
  rcases env with ⟨hp, bcf, clp, cle, pf, acf⟩
  cases hp <;> cases bcf <;> cases clp <;> cases cle <;> cases pf <;>
    cases acf <;>
    first
      | exact connectCatch_spec _ _ _
      | simp [connect] at h

/-- Witness for C8: a connect whose liveness probe fails. -/
theorem connect_failure_resets_state_witness :
    isConnected (connect ⟨true, none, none, true, some "boom", none⟩).state
        = false ∧
    getConnection (connect ⟨true, none, none, true, some "boom", none⟩).state
        = none ∧
    ((⟨true, none, none, true, some "boom", none⟩ : ConnEnv).hasPlugin = true →
      ∃ e, CEvent.onError e
        ∈ (connect ⟨true, none, none, true, some "boom", none⟩).events) ∧
    ∃ e, (connect ⟨true, none, none, true, some "boom", none⟩).result
        = Except.error ("Falha na conexão: " ++ e) :=
  connect_failure_resets_state ⟨true, none, none, true, some "boom", none⟩
    "Falha na conexão: boom" rfl

theorem dispatchPhase_all_ok (ph : Phase) (ps : List Plugin)
    (h : ∀ p ∈ ps, p.handlers ph = none ∨ p.handlers ph = some (Except.ok ())) :
    dispatchPhase ph ps = (implementerNames ph ps, none) := by
  induction ps with
  | nil => rfl
  | cons p rest ih =>
    have ihr := ih fun q hq => h q (List.mem_cons_of_mem p hq)
    rcases h p (List.mem_cons_self p rest) with hp | hp <;>
      simp [dispatchPhase, implementerNames, hp, ihr]

theorem dispatchPhase_abort (ph : Phase) (l1 : List Plugin) (p : Plugin)
    (l2 : List Plugin)
    (hok : ∀ q ∈ l1, q.handlers ph = none ∨ q.handlers ph = some (Except.ok ()))
    (e : String) (he : p.handlers ph = some (Except.error e)) :
    dispatchPhase ph (l1 ++ p :: l2)
      = (implementerNames ph l1 ++ [p.name], some e) := by
  induction l1 with
  | nil => simp [dispatchPhase, implementerNames, he]
  | cons q l1' ih =>
    have ihr := ih fun r hr => hok r (List.mem_cons_of_mem q hr)
    rcases hok q (List.mem_cons_self q l1') with hq | hq <;>
      simp [dispatchPhase, implementerNames, hq, ihr]

/-- C9: for every phase and plugin list, when every plugin that
implements the phase succeeds, the dispatch loop invokes exactly the
implementers, strictly in registration order, and returns no error;
when some plugin throws, every earlier implementer has been invoked, the
throwing plugin is the last one invoked, later plugins are not invoked,
and the error propagates; and `register` appends a plugin implementing
`init` at the end of the ordered sequence. -/
theorem pluginManager_dispatch_order (ph : Phase) (ps : List Plugin) :
    ((∀ p ∈ ps, p.handlers ph = none ∨ p.handlers ph = some (Except.ok ())) →
      dispatchPhase ph ps = (implementerNames ph ps, none)) ∧
    (∀ l1 p l2, ps = l1 ++ p :: l2 →
      (∀ q ∈ l1, q.handlers ph = none ∨ q.handlers ph = some (Except.ok ())) →
      ∀ e, p.handlers ph = some (Except.error e) →
      dispatchPhase ph ps = (implementerNames ph l1 ++ [p.name], some e)) ∧
    (∀ p : Plugin, (p.handlers Phase.init).isSome = true →
      register ps p = Except.ok (ps ++ [p])) := by
  refine ⟨dispatchPhase_all_ok ph ps, ?_, ?_⟩
  · intro l1 p l2 hps hok e he
    rw [hps]
    exact dispatchPhase_abort ph l1 p l2 hok e he
  · intro p hp
    simp [register, hp]

/-- Witness for C9: registering A, then dispatching `init` over [A, B]
in order, then a dispatch aborted by a throwing middle plugin. -/
theorem pluginManager_dispatch_order_witness :
    register [] ⟨"A", fun _ => some (Except.ok ())⟩
      = Except.ok [⟨"A", fun _ => some (Except.ok ())⟩] ∧
    dispatchPhase Phase.init
        [⟨"A", fun _ => some (Except.ok ())⟩,
         ⟨"B", fun _ => some (Except.ok ())⟩]
      = (["A", "B"], none) ∧
    dispatchPhase Phase.beforeQuery
        [⟨"A", fun _ => some (Except.ok ())⟩,
         ⟨"C", fun _ => some (Except.error "bad")⟩,
         ⟨"B", fun _ => some (Except.ok ())⟩]
      = (["A", "C"], some "bad") := by
  refine ⟨?_, ?_, ?_⟩
  · exact (pluginManager_dispatch_order Phase.init []).2.2
      ⟨"A", fun _ => some (Except.ok ())⟩ rfl
  · exact (pluginManager_dispatch_order Phase.init
      [⟨"A", fun _ => some (Except.ok ())⟩,
       ⟨"B", fun _ => some (Except.ok ())⟩]).1
      (by
        intro p hp
        rcases List.mem_cons.mp hp with rfl | hp2
        · exact Or.inr rfl
        rcases List.mem_cons.mp hp2 with rfl | hp3
        · exact Or.inr rfl
        · simp at hp3)
  · exact (pluginManager_dispatch_order Phase.beforeQuery
      [⟨"A", fun _ => some (Except.ok ())⟩,
       ⟨"C", fun _ => some (Except.error "bad")⟩,
       ⟨"B", fun _ => some (Except.ok ())⟩]).2.1
      [⟨"A", fun _ => some (Except.ok ())⟩]
      ⟨"C", fun _ => some (Except.error "bad")⟩
      [⟨"B", fun _ => some (Except.ok ())⟩] rfl
      (by
        intro q hq
        rcases List.mem_cons.mp hq with rfl | hq2
        · exact Or.inr rfl
        · simp at hq2)
      "bad" rfl

/-- Witness for the amended C3: `acquireTimeout: 5000` surfaces as
`acquireTimeoutMillis: 5000`, the unrecognized `foo: 1` is dropped, and
the legacy name itself does not survive. -/
theorem sanitizePoolConfig_characterization_witness :
    (sanitizePoolConfig [("acquireTimeout", 5000), ("foo", 1)]).lookup
        "acquireTimeoutMillis" = some 5000 ∧
    (sanitizePoolConfig [("acquireTimeout", 5000), ("foo", 1)]).lookup "foo"
        = none ∧
    (sanitizePoolConfig [("acquireTimeout", 5000), ("foo", 1)]).lookup
        "acquireTimeout" = none := by
  refine ⟨?_, ?_, ?_⟩
  · rw [(sanitizePoolConfig_characterization
        [("acquireTimeout", 5000), ("foo", 1)]).2.2 "acquireTimeoutMillis"
        (by decide) (by decide)]
    decide
  · exact (sanitizePoolConfig_characterization
        [("acquireTimeout", 5000), ("foo", 1)]).1 "foo" (by decide)
  · exact (sanitizePoolConfig_characterization
        [("acquireTimeout", 5000), ("foo", 1)]).2.1 "acquireTimeout"
        (by decide)

/-- C1, counterexample: the write-path validator has no bare numeric
tautology check, so `SELECT * FROM t WHERE id=1 OR 1=1` — which matches
the `OR 1=1` pattern — is accepted by `validateSqlForTransaction`,
refuting "both validators return invalid with reason injection pattern
detected". -/
theorem writePath_accepts_numeric_tautology :
    falseCondMatch (normChars "SELECT * FROM t WHERE id=1 OR 1=1") = true ∧
    validateSqlForTransaction "SELECT * FROM t WHERE id=1 OR 1=1"
      = ⟨true, some "Consulta válida", none⟩ :=
  ⟨by decide, by decide⟩

/-- C1, amended: for every SQL text matching the bare numeric OR/AND
tautology pattern and triggering no earlier rule (no destructive-schema
keyword, no data-mutation keyword, no other injection pattern), the
read-path validator `validateSql` returns invalid with reason
"Padrão de injeção SQL detectado" (injection pattern detected), while
the write-path validator `validateSqlForTransaction` — which lacks the
bare tautology check — returns valid. -/
theorem numeric_tautology_read_rejects_write_accepts (sql : String)
    (htaut : falseCondMatch (normChars sql) = true)
    (hdanger : ∀ k ∈ dangerousKeywords, hasSubstrCh k.toList (normChars sql) = false)
    (hwrite : ∀ k ∈ writeOperations, hasSubstrCh k.toList (normChars sql) = false)
    (hinj : containsSqlInjectionPatterns sql = false) :
    validateSql sql = ⟨false, none, some injectionMsg⟩ ∧
    validateSqlForTransaction sql = ⟨true, some "Consulta válida", none⟩ := by
  have h1 := findBad_none (normChars sql) dangerousKeywords hdanger
  have h2 := findBad_none (normChars sql) writeOperations hwrite
  constructor <;>
    simp [validateSql, validateSqlForTransaction, h1, h2, hinj, htaut]

/-- Witness for the amended C1 at the concrete tautology query. -/
theorem numeric_tautology_read_rejects_write_accepts_witness :
    validateSql "SELECT * FROM a WHERE b=2 AND 1=1"
      = ⟨false, none, some injectionMsg⟩ ∧
    validateSqlForTransaction "SELECT * FROM a WHERE b=2 AND 1=1"
      = ⟨true, some "Consulta válida", none⟩ :=
  numeric_tautology_read_rejects_write_accepts "SELECT * FROM a WHERE b=2 AND 1=1"
    (by decide) (by decide) (by decide) (by decide)

/-- C4: for every SQL text whose trimmed, case-folded form contains one
of DELETE/UPDATE/INSERT, with no destructive-schema keyword and no
injection pattern, the read-path validator rejects naming a contained
data-mutation keyword, while the write-path validator accepts. -/
theorem write_keyword_read_rejects_write_accepts (sql : String)
    (hk : ∃ k ∈ writeOperations, hasSubstrCh k.toList (normChars sql) = true)
    (hdanger : ∀ k ∈ dangerousKeywords, hasSubstrCh k.toList (normChars sql) = false)
    (hinj : containsSqlInjectionPatterns sql = false) :
    ((validateSql sql).valid = false ∧
      ∃ k, k ∈ writeOperations ∧ hasSubstrCh k.toList (normChars sql) = true ∧
        (validateSql sql).error = some (keywordMsg k)) ∧
    validateSqlForTransaction sql = ⟨true, some "Consulta válida", none⟩ := by
  have h1 := findBad_none (normChars sql) dangerousKeywords hdanger
  obtain ⟨k', hfind, hk'mem, hk'sub⟩ := findBad_some (normChars sql) writeOperations hk
  refine ⟨⟨?_, k', hk'mem, hk'sub, ?_⟩, ?_⟩ <;>
    simp [validateSql, validateSqlForTransaction, h1, hfind, hinj]

/-- Witness for C4 at a concrete UPDATE statement. -/
theorem write_keyword_read_rejects_write_accepts_witness :
    ((validateSql "UPDATE t SET a = 2 WHERE b = 3").valid = false ∧
      ∃ k, k ∈ writeOperations ∧
        hasSubstrCh k.toList (normChars "UPDATE t SET a = 2 WHERE b = 3") = true ∧
        (validateSql "UPDATE t SET a = 2 WHERE b = 3").error = some (keywordMsg k)) ∧
    validateSqlForTransaction "UPDATE t SET a = 2 WHERE b = 3"
      = ⟨true, some "Consulta válida", none⟩ :=
  write_keyword_read_rejects_write_accepts "UPDATE t SET a = 2 WHERE b = 3"
    ⟨"UPDATE", by decide, by decide⟩ (by decide) (by decide)

/-- C5: for every SQL text containing DROP, TRUNCATE, ALTER or CREATE in
any letter case and at any position, both validators return invalid with
a contained destructive-schema keyword named in the reason (the same one
for both, the first in denylist order). -/
theorem dangerous_keyword_rejected_by_both (sql : String)
    (h : ∃ k ∈ dangerousKeywords, hasSubstrCI k.toList sql.toList = true) :
    ∃ k, k ∈ dangerousKeywords ∧
      hasSubstrCh k.toList (normChars sql) = true ∧
      (validateSql sql).valid = false ∧
      (validateSql sql).error = some (keywordMsg k) ∧
      (validateSqlForTransaction sql).valid = false ∧
      (validateSqlForTransaction sql).error = some (keywordMsg k) := by
  obtain ⟨k, hkmem, hsub⟩ := h
  have hnorm : ∃ k ∈ dangerousKeywords,
      hasSubstrCh k.toList (normChars sql) = true := by
    refine ⟨k, hkmem, ?_⟩
    have hmem' := hkmem
    simp only [dangerousKeywords, List.mem_cons, List.not_mem_nil, or_false] at hmem'
    rcases hmem' with rfl | rfl | rfl | rfl <;>
      exact substrCI_normChars sql _ (by decide) (by decide) (by decide) hsub
  obtain ⟨k', hfind, hk'mem, hk'sub⟩ :=
    findBad_some (normChars sql) dangerousKeywords hnorm
  refine ⟨k', hk'mem, hk'sub, ?_, ?_, ?_, ?_⟩ <;>
    simp [validateSql, validateSqlForTransaction, hfind]

theorem txBody_ok (exec : Driver) (queries : List TxQuery)
    (h : ∀ q ∈ queries, txEntryOk exec q) :
    txBody exec queries = Except.ok (txResults exec queries) := by
  induction queries with
  | nil => rfl
  | cons q rest ih =>
    obtain ⟨hv, r, hr⟩ := h q (List.mem_cons_self q rest)
    have ihr := ih fun p hp => h p (List.mem_cons_of_mem q hp)
    simp [txBody, txResults, hv, hr, ihr]

theorem txBody_err (exec : Driver) (queries : List TxQuery)
    (h : ∃ q ∈ queries, ¬ txEntryOk exec q) :
    ∃ e, txBody exec queries = Except.error e := by
  induction queries with
  | nil => simp at h
  | cons q rest ih =>
    by_cases hq : txEntryOk exec q
    · obtain ⟨hv, r, hr⟩ := hq
      have hrest : ∃ p ∈ rest, ¬ txEntryOk exec p := by
        obtain ⟨p, hp, hbad⟩ := h
        rcases List.mem_cons.mp hp with rfl | hp'
        · exact absurd ⟨hv, r, hr⟩ hbad
        · exact ⟨p, hp', hbad⟩
      obtain ⟨e, he⟩ := ih hrest
      exact ⟨e, by simp [txBody, hv, hr, he]⟩
    · unfold txEntryOk at hq
      push_neg at hq
      by_cases hv : (validateSqlForTransaction q.sql).valid = true
      · have hex : ∀ r, exec q.sql (bindingsOf q) ≠ Except.ok r := hq hv
        cases hee : exec q.sql (bindingsOf q) with
        | ok r => exact absurd hee (hex r)
        | error e => exact ⟨e, by simp [txBody, hv, hee]⟩
      · have hv' : (validateSqlForTransaction q.sql).valid = false := by
          cases hb : (validateSqlForTransaction q.sql).valid with
          | true => exact absurd hb hv
          | false => rfl
        exact ⟨"Consulta inválida: "
            ++ (validateSqlForTransaction q.sql).error.getD "",
          by simp [txBody, hv']⟩

/-- C2: for every driver behaviour and query list, if every entry passes
write-path validation and executes successfully, `executeTransaction`
commits and returns the per-statement results in input order; if any
entry fails validation or execution, the transaction body throws, the
transaction is never committed, the failure propagates, and the caller
receives no partial results. -/
theorem executeTransaction_atomic (exec : Driver) (queries : List TxQuery) :
    ((∀ q ∈ queries, txEntryOk exec q) →
      executeTransaction true exec queries
        = (Except.ok (txResults exec queries), true)) ∧
    ((∃ q ∈ queries, ¬ txEntryOk exec q) →
      ∃ e, executeTransaction true exec queries = (Except.error e, false)) := by
  constructor
  · intro h
    simp [executeTransaction, runTransaction, txBody_ok exec queries h]
  · intro h
    obtain ⟨e, he⟩ := txBody_err exec queries h
    exact ⟨e, by simp [executeTransaction, runTransaction, he]⟩

/-- Witness for C2: a two-statement transaction that fully succeeds, and
one whose second statement fails validation and commits nothing. -/
theorem executeTransaction_atomic_witness :
    executeTransaction true
      (fun sql _ => if sql = "INSERT INTO t (a) VALUES (1)" then Except.ok 1
        else if sql = "INSERT INTO t (a) VALUES (2)" then Except.ok 2
        else Except.error "boom")
      [⟨"INSERT INTO t (a) VALUES (1)", none⟩,
       ⟨"INSERT INTO t (a) VALUES (2)", some [5]⟩]
      = (Except.ok [1, 2], true) ∧
    ∃ e, executeTransaction true
      (fun sql _ => if sql = "INSERT INTO t (a) VALUES (1)" then Except.ok 1
        else if sql = "INSERT INTO t (a) VALUES (2)" then Except.ok 2
        else Except.error "boom")
      [⟨"INSERT INTO t (a) VALUES (1)", none⟩, ⟨"DROP TABLE t", none⟩]
      = (Except.error e, false) :=
  ⟨(executeTransaction_atomic
      (fun sql _ => if sql = "INSERT INTO t (a) VALUES (1)" then Except.ok 1
        else if sql = "INSERT INTO t (a) VALUES (2)" then Except.ok 2
        else Except.error "boom")
      [⟨"INSERT INTO t (a) VALUES (1)", none⟩,
       ⟨"INSERT INTO t (a) VALUES (2)", some [5]⟩]).1 (by decide),
   (executeTransaction_atomic
      (fun sql _ => if sql = "INSERT INTO t (a) VALUES (1)" then Except.ok 1
        else if sql = "INSERT INTO t (a) VALUES (2)" then Except.ok 2
        else Except.error "boom")
      [⟨"INSERT INTO t (a) VALUES (1)", none⟩,
       ⟨"DROP TABLE t", none⟩]).2 (by decide)⟩

/-- C6: for every SQL text, bindings and options, `executeQuery` on a
disconnected instance fails with the not-connected condition and an
empty event trace — no hook dispatch, no validation, no driver
interaction. -/
theorem executeQuery_not_connected (hasPlugin : Bool) (exec : Driver)
    (sql : String) (bindings : Option (List Int))
    (opts : List (String × Int)) :
    executeQuery false hasPlugin exec sql bindings opts
      = ⟨Except.error "Conexão com o banco de dados não está ativa", []⟩ :=
  rfl

/-- C10: on a connected instance with a plugin manager set, a SQL text
rejected by the read-path validator makes `executeQuery` dispatch
`beforeQuery`, run validation, dispatch `onError` with the rejection
error, and re-raise it — with no driver interaction. -/
theorem executeQuery_rejected_dispatches_onError (exec : Driver)
    (sql : String) (bindings : Option (List Int))
    (opts : List (String × Int))
    (h : (validateSql sql).valid = false) :
    executeQuery true true exec sql bindings opts
      = ⟨Except.error ("Consulta inválida: " ++ (validateSql sql).error.getD ""),
         [QEvent.beforeQuery sql, QEvent.validate sql,
          QEvent.onError
            ("Consulta inválida: " ++ (validateSql sql).error.getD "")]⟩ := by
  simp [executeQuery, h]

/-- Witness for C10 at a rejected DELETE statement. -/
theorem executeQuery_rejected_dispatches_onError_witness :
    (validateSql "DELETE FROM t WHERE a = 1").valid = false ∧
    executeQuery true true (fun _ _ => Except.ok 0)
        "DELETE FROM t WHERE a = 1" none []
      = ⟨Except.error ("Consulta inválida: "
            ++ (validateSql "DELETE FROM t WHERE a = 1").error.getD ""),
         [QEvent.beforeQuery "DELETE FROM t WHERE a = 1",
          QEvent.validate "DELETE FROM t WHERE a = 1",
          QEvent.onError ("Consulta inválida: "
            ++ (validateSql "DELETE FROM t WHERE a = 1").error.getD "")]⟩ :=
  ⟨by decide,
   executeQuery_rejected_dispatches_onError (fun _ _ => Except.ok 0)
     "DELETE FROM t WHERE a = 1" none [] (by decide)⟩

/-- Witness for C5 at a lower-case `drop` query. -/
theorem dangerous_keyword_rejected_by_both_witness :
    ∃ k, k ∈ dangerousKeywords ∧
      hasSubstrCh k.toList (normChars "select * from x; drop table x") = true ∧
      (validateSql "select * from x; drop table x").valid = false ∧
      (validateSql "select * from x; drop table x").error = some (keywordMsg k) ∧
      (validateSqlForTransaction "select * from x; drop table x").valid = false ∧
      (validateSqlForTransaction "select * from x; drop table x").error
        = some (keywordMsg k) :=
  dangerous_keyword_rejected_by_both "select * from x; drop table x"
    ⟨"DROP", by decide, by decide⟩

end NodeFirebird
